import Mathlib

/-!
Shallow embedding of the protocol engine of the SparkFun Swarm Satellite
Arduino library (src/SparkFun_Swarm_Satellite_Arduino_Library.cpp).

Byte buffers are modelled as `List Nat` holding the byte values of the
C strings up to (and excluding) their NUL terminator; per the library's
own documented invariant all transported bytes are printable ASCII, so
the buffers contain no 0 byte.  Reads past the end of a C string hit the
NUL terminator and are modelled with `List.getD _ _ 0`.
-/

set_option maxRecDepth 40000

/-- Byte buffers: the contents of a NUL-terminated C string. -/
abbrev Bytes := List Nat

/-- Byte values of a string literal (ASCII). -/
def toB (s : String) : Bytes := s.data.map Char.toNat

/-- The `Swarm_M138_Error_e` enum of the library header. -/
inductive Swarm_M138_Error_e where
  | ERROR
  | SUCCESS
  | MEM_ALLOC
  | TIMEOUT
  | INVALID_FORMAT
  | INVALID_CHECKSUM
  | INVALID_RATE
  | INVALID_MODE
  | ERR
deriving DecidableEq

/-- `strchr(s, c)` as an index: position of the first occurrence of byte
`c` in `s`, scanning a NUL-free buffer. -/
def strchrPos (c : Nat) : Bytes → Option Nat
  | [] => none
  | b :: rest => if b = c then some 0 else (strchrPos c rest).map (· + 1)

/-- `strstr(s, pat)` as an index: position of the first occurrence of the
byte pattern `pat` as a contiguous run inside `s`. -/
def strstrPos (pat : Bytes) : Bytes → Option Nat
  | [] => if pat.isEmpty then some 0 else none
  | b :: rest =>
      if pat.isPrefixOf (b :: rest) then some 0
      else (strstrPos pat rest).map (· + 1)

/-- Running 8-bit XOR of a byte buffer (the loop `checksum ^= *p`). -/
def xorList (l : Bytes) : Nat := l.foldl (fun a b => a ^^^ b) 0

/-- High checksum nibble encoded as in `addChecksumLF`:
`(checksum >> 4) + '0'`, shifted into `a`..`f` when above `9`. -/
def hexHi (cs : Nat) : Nat :=
  let x := (cs >>> 4) + 48
  if 58 ≤ x then x + 39 else x

/-- Low checksum nibble encoded as in `addChecksumLF`:
`(checksum & 0x0F) + '0'`, shifted into `a`..`f` when above `9`. -/
def hexLo (cs : Nat) : Nat :=
  let x := (cs &&& 15) + 48
  if 58 ≤ x then x + 39 else x

/-- Hex digit decoding of `checkChecksum`: `0`-`9`, then `a`-`f`, then
`A`-`F`, anything else (including the NUL read past the end) fails. -/
def hexVal (c : Nat) : Option Nat :=
  if 48 ≤ c ∧ c ≤ 57 then some (c - 48)
  else if 97 ≤ c ∧ c ≤ 102 then some (c + 10 - 97)
  else if 65 ≤ c ∧ c ≤ 70 then some (c + 10 - 65)
  else none

/-- `SWARM_M138::addChecksumLF` (cpp lines 5049-5088): find the `$`, find
the `*` after it (allowing a doubled `**`), XOR the bytes strictly in
between, and append the two hex digits plus the line feed right after the
`*`.  The C routine writes in place and re-terminates with NUL; on the
`$...*`-shaped commands it is called with, the effect on the string
content is exactly this append. -/
def addChecksumLF (command : Bytes) : Bytes :=
  match strchrPos 36 command with
  | none => command
  | some d =>
    match strchrPos 42 (command.drop d) with
    | none => command
    | some k =>
      let a0 := d + k
      let a := if command.getD (a0 + 1) 0 = 42 then a0 + 1 else a0
      let cs := xorList ((command.drop (d + 1)).take (a - (d + 1)))
      command.take (a + 1) ++ [hexHi cs, hexLo cs, 10]

/-- The tail of `checkChecksum` (cpp lines 5125-5170) once the frame is
located: decode the two checksum characters and compare with the
computed XOR `cs`. -/
def checksumVerdict (cs c1 c2 : Nat) : Swarm_M138_Error_e :=
  match hexVal c1 with
  | none => .INVALID_FORMAT
  | some hi =>
    match hexVal c2 with
    | none => .INVALID_FORMAT
    | some lo =>
      if cs = (hi <<< 4) ||| lo then .SUCCESS else .INVALID_CHECKSUM

/-- `SWARM_M138::checkChecksum` (cpp lines 5091-5171): locate `$`, locate
the first `*` at or after it, XOR the interior, decode the two hex digits
following the `*` (reading the NUL as 0 when the string ends early) and
compare. -/
def checkChecksum (s : Bytes) : Swarm_M138_Error_e :=
  match strchrPos 36 s with
  | none => .INVALID_FORMAT
  | some d =>
    match strchrPos 42 (s.drop d) with
    | none => .INVALID_FORMAT
    | some k =>
      let a := d + k
      checksumVerdict (xorList ((s.drop (d + 1)).take (a - (d + 1))))
        (s.getD (a + 1) 0) (s.getD (a + 2) 0)

/-- `SWARM_M138_MAX_CMD_ERROR_LEN` from the header. -/
def SWARM_M138_MAX_CMD_ERROR_LEN : Nat := 32

/-- `SWARM_M138::extractCommandError` (cpp lines 5174-5199): clear the
command error slot, find `ERR,`, find the `*` after it, copy at most 31
bytes of the text in between into the slot.  Returns the new slot
content together with the function's result code. -/
def extractCommandError (s : Bytes) : Bytes × Swarm_M138_Error_e :=
  match strstrPos (toB "ERR,") s with
  | none => ([], .ERROR)
  | some i =>
    let t := s.drop (i + 4)
    match strchrPos 42 t with
    | none => ([], .ERROR)
    | some a => (t.take (min a (SWARM_M138_MAX_CMD_ERROR_LEN - 1)), .SUCCESS)

/-- Pieces of a buffer cut at every newline byte; consecutive newlines
yield empty pieces. -/
def splitNL : Bytes → List Bytes
  | [] => [[]]
  | c :: rest =>
    if c = 10 then [] :: splitNL rest
    else
      match splitNL rest with
      | [] => [[c]]
      | p :: ps => (c :: p) :: ps

/-- The tokens produced by `strtok_r(buf, "\n", ...)`: the maximal
nonempty runs of non-newline bytes, in order. -/
def strtokens (s : Bytes) : List Bytes :=
  (splitNL s).filter (fun t => !t.isEmpty)

/-- Substring test (`strstr(s, pat) != NULL`). -/
def hasSub (pat s : Bytes) : Bool :=
  s.tails.any (fun t => pat.isPrefixOf t)

/-- The keep condition of `SWARM_M138::pruneBacklog` (cpp lines
5682-5691): an event survives pruning iff it contains one of the ten
recognized unsolicited tags as a substring. -/
def keepEvent (e : Bytes) : Bool :=
  hasSub (toB "$DT ") e || hasSub (toB "$GJ ") e || hasSub (toB "$GN ") e
    || hasSub (toB "$GS ") e || hasSub (toB "$PW ") e || hasSub (toB "$RD ") e
    || hasSub (toB "$RT ") e || hasSub (toB "$SL ") e || hasSub (toB "$M138 ") e
    || hasSub (toB "$TD ") e

/-- `SWARM_M138::pruneBacklog` (cpp lines 5662-5705, successful
allocation path): tokenize the backlog at newlines, keep only the
actionable events, and rebuild the backlog from the kept events, each
re-terminated with the newline that `strtok_r` consumed. -/
def pruneBacklog (b : Bytes) : Bytes :=
  ((strtokens b).filter keepEvent).foldr (fun e acc => e ++ 10 :: acc) []

/-- `_RxBuffSize` from the header: capacity of the backlog and receive
buffers. -/
def RxBuffSize : Nat := 512

/-- The per-call state of `SWARM_M138::waitForResponse` (cpp lines
5251-5406): the response destination accumulated so far (`destIndex` is
its length), the backlog, the two prefix scanners and the `found` flag. -/
structure WFRState where
  dest : Bytes
  backlog : Bytes
  responseIndex : Nat
  errorIndex : Nat
  responseStartSeen : Bool
  errorStartSeen : Bool
  responseStartedAt : Nat
  errorStartedAt : Nat
  found : Bool
deriving DecidableEq

/-- One iteration of the scan loop of `waitForResponse` (cpp lines
5286-5324) on the byte `c` sitting at offset `chrPtr` of the response
destination buffer: advance or reset the success scanner, then the error
scanner (when an error prefix was supplied), then set `found` when a
newline arrives while either scanner has completed.  A scanner that is
at index 0 and has not completed before records `chrPtr` as the offset
where its tentative match starts. -/
def scanChar (rs : Bytes) (es : Option Bytes) (c : Nat) (chrPtr : Nat)
    (st : WFRState) : WFRState :=
  let st1 :=
    if c = rs.getD st.responseIndex 0 then
      { st with
        responseStartedAt :=
          if st.responseIndex = 0 ∧ st.responseStartSeen = false then chrPtr
          else st.responseStartedAt
        responseIndex := st.responseIndex + 1
        responseStartSeen :=
          st.responseStartSeen || (st.responseIndex + 1 == rs.length) }
    else { st with responseIndex := 0 }
  let st2 :=
    match es with
    | none => st1
    | some e =>
      if c = e.getD st1.errorIndex 0 then
        { st1 with
          errorStartedAt :=
            if st1.errorIndex = 0 ∧ st1.errorStartSeen = false then chrPtr
            else st1.errorStartedAt
          errorIndex := st1.errorIndex + 1
          errorStartSeen :=
            st1.errorStartSeen || (st1.errorIndex + 1 == e.length) }
      else { st1 with errorIndex := 0 }
  if (st2.responseStartSeen || st2.errorStartSeen) && c == 10 then
    { st2 with found := true }
  else st2

/-- The scan loop over one chunk of newly read bytes, `chrPtr` starting
at the current `destIndex`.  The C loop scans the whole chunk even if
`found` becomes true mid-chunk. -/
def scanFrom (rs : Bytes) (es : Option Bytes) : Nat → Bytes → WFRState → WFRState
  | _, [], st => st
  | i, c :: rest, st => scanFrom rs es (i + 1) rest (scanChar rs es c i st)

/-- One pass of the polling loop of `waitForResponse` (cpp lines
5266-5368) in which `hwReadChars` returned `chunk`: if the chunk does not
fit in the response destination it is not consumed at all (debug print
only); otherwise it is appended to the destination, scanned, and then
also appended to the backlog when it fits there (debug print only when
not). -/
def processChunk (rs : Bytes) (es : Option Bytes) (destSize : Nat)
    (st : WFRState) (chunk : Bytes) : WFRState :=
  if st.dest.length + chunk.length < destSize then
    let st1 := scanFrom rs es st.dest.length chunk st
    let st2 := { st1 with dest := st.dest ++ chunk }
    if st.backlog.length + chunk.length < RxBuffSize then
      { st2 with backlog := st.backlog ++ chunk }
    else st2
  else st

/-- The polling loop of `waitForResponse` over the successive chunks the
transport delivers before the deadline; the loop condition re-checks
`found` before each poll. -/
def runChunks (rs : Bytes) (es : Option Bytes) (destSize : Nat)
    (st : WFRState) : List Bytes → WFRState
  | [] => st
  | ch :: rest =>
    if st.found then st
    else runChunks rs es destSize (processChunk rs es destSize st ch) rest

/-- The exit logic of `waitForResponse` (cpp lines 5374-5401): on a match
the error scanner has priority; its frame is checksum-validated at
`&_swarmBacklog[errorStartedAt]` and, when valid, the command error slot
is overwritten and `ERR` returned.  Otherwise the success frame is
validated at `&_swarmBacklog[responseStartedAt]`.  Without a match the
result is `TIMEOUT`.  Returns the result code and the (possibly updated)
command error slot. -/
def resolveWFR (slot0 : Bytes) (st : WFRState) : Swarm_M138_Error_e × Bytes :=
  if st.found then
    if st.errorStartSeen then
      let c := checkChecksum (st.backlog.drop st.errorStartedAt)
      if c = .SUCCESS then
        (.ERR, (extractCommandError (st.backlog.drop st.errorStartedAt)).1)
      else (c, slot0)
    else if st.responseStartSeen then
      (checkChecksum (st.backlog.drop st.responseStartedAt), slot0)
    else (.ERROR, slot0)
  else (.TIMEOUT, slot0)

/-- The observable outcome of one `waitForResponse` call: result code,
backlog left behind (after the final `pruneBacklog`), command error slot
and response destination content. -/
structure WFRResult where
  err : Swarm_M138_Error_e
  backlog : Bytes
  slot : Bytes
  dest : Bytes
deriving DecidableEq

/-- The initial per-call state of `waitForResponse` (cpp lines
5254-5260) over whatever the backlog holds when the call begins. -/
def initWFRState (backlog0 : Bytes) : WFRState :=
  ⟨[], backlog0, 0, 0, false, false, 0, 0, false⟩

/-- `SWARM_M138::waitForResponse` (cpp lines 5251-5406) driven by the
list of byte chunks the transport delivers before the deadline (an empty
or unmatched run models the timeout). -/
def waitForResponse (rs : Bytes) (es : Option Bytes) (destSize : Nat)
    (backlog0 slot0 : Bytes) (chunks : List Bytes) : WFRResult :=
  let stf := runChunks rs es destSize (initWFRState backlog0) chunks
  let r := resolveWFR slot0 stf
  ⟨r.1, pruneBacklog stf.backlog, r.2, stf.dest⟩

/-- The outcome of one `checkUnsolicitedMsg` call: its boolean return
value, the reentrancy flag after the call, and the backlog after the
call. -/
structure DispatchOut where
  handled : Bool
  reentrantFlag : Bool
  backlog : Bytes
deriving DecidableEq

/-- The per-event loop of `checkUnsolicitedMsg` (cpp lines 274-316):
an event counts as handled when its checksum validates and
`processUnsolicitedEvent` (modelled by the collaborator `handler`)
decodes it. -/
def processEvents (handler : Bytes → Bool) (events : List Bytes) : Bool :=
  events.foldl
    (fun h e => if checkChecksum e = .SUCCESS then h || handler e else h) false

/-- `SWARM_M138::checkUnsolicitedMsg` (cpp lines 199-325) for callbacks
that do not re-enter the engine (so the backlog is not refilled during
the event loop) and with the bounded collection window delivering
`incoming` wholly.  `allocOK` models whether the `_swarmRxBuffer`
allocation at line 211 succeeds.  The reentrancy guard and the
backlog handling are embedded literally: a nested call returns `false`
at once; on allocation failure the function returns `false` after
having set the guard flag, without clearing it (cpp lines 211-217);
otherwise the backlog is consumed into the receive buffer, the events
are processed, the guard is cleared and the disjunction of the per-event
results is returned. -/
def checkUnsolicitedMsg (handler : Bytes → Bool) (reentrantFlag allocOK : Bool)
    (backlog0 incoming : Bytes) : DispatchOut :=
  if reentrantFlag then ⟨false, reentrantFlag, backlog0⟩
  else if allocOK = false then ⟨false, true, backlog0⟩
  else
    let rx := backlog0 ++ incoming
    ⟨processEvents handler (strtokens rx), false, []⟩

/-- The `Swarm_M138_DateTimeData_t` struct of the header (lines 135-145).
Its field documentation defines `MM` as Month `01..12` and `DD` as Day
`01..31`. -/
structure Swarm_M138_DateTimeData_t where
  YYYY : Nat
  MM : Nat
  DD : Nat
  hh : Nat
  mm : Nat
  ss : Nat
  valid : Bool
deriving DecidableEq

/-- One decimal digit, or failure. -/
def readDigit (c : Nat) : Option Nat :=
  if 48 ≤ c ∧ c ≤ 57 then some (c - 48) else none

/-- `n` decimal digits accumulated into a value, returning the rest of
the buffer. -/
def readDigitsAux : Nat → Nat → Bytes → Option (Nat × Bytes)
  | 0, acc, s => some (acc, s)
  | n + 1, acc, s =>
    match s with
    | [] => none
    | c :: r =>
      match readDigit c with
      | none => none
      | some d => readDigitsAux n (acc * 10 + d) r

/-- Exactly `n` decimal digits, as used by the `%4d`/`%2d` conversions of
the `$DT` sscanf format on a well-formed fixed-width timestamp. -/
def readDigits (n : Nat) (s : Bytes) : Option (Nat × Bytes) :=
  readDigitsAux n 0 s

/-- The `$DT` field extraction shared by `processUnsolicitedEvent` (cpp
lines 337-368) and `getDateTime` (cpp lines 1126-1155): find `"$DT "`,
require a `*` at offset at least 20 from it, run
`sscanf(.., "$DT %4d%2d%2d%2d%2d%2d,%c*", &year, &month, &day, &hour,
&minute, &second, &valid)` (modelled for the fixed-width all-digit
timestamps the modem emits), then fill the struct exactly as the two
code blocks do: `YYYY = year; DD = month; MM = day; hh = hour;
mm = minute; ss = second; valid = (valid == 'V')`.  All parsed values
are below their casts' moduli (4 digits < 2^16, 2 digits < 2^8), so the
C casts are the identity here.  The checksum of the event was already
validated by the caller and is not re-checked. -/
def parseDT (event : Bytes) : Option Swarm_M138_DateTimeData_t :=
  match strstrPos (toB "$DT ") event with
  | none => none
  | some i =>
    let s := event.drop i
    match strchrPos 42 s with
    | none => none
    | some e =>
      if e < 20 then none
      else
        match readDigits 4 (s.drop 4) with
        | none => none
        | some (year, t1) =>
          match readDigits 2 t1 with
          | none => none
          | some (month, t2) =>
            match readDigits 2 t2 with
            | none => none
            | some (day, t3) =>
              match readDigits 2 t3 with
              | none => none
              | some (hour, t4) =>
                match readDigits 2 t4 with
                | none => none
                | some (minute, t5) =>
                  match readDigits 2 t5 with
                  | none => none
                  | some (second, t6) =>
                    match t6 with
                    | 44 :: vc :: _ =>
                      some { YYYY := year, MM := day, DD := month,
                             hh := hour, mm := minute, ss := second,
                             valid := vc == 86 }
                    | _ => none

/-- The locate-the-frame logic shared by `addChecksumLF` and
`checkChecksum`: the bytes strictly between the first `$` and the first
`*` at or after it — the checksummed interior of a frame. -/
def frameInterior (s : Bytes) : Bytes :=
  match strchrPos 36 s with
  | none => []
  | some d =>
    match strchrPos 42 (s.drop d) with
    | none => []
    | some k => (s.drop (d + 1)).take (d + k - (d + 1))

/-! ### Helper lemmas about the byte-level primitives -/

theorem strchrPos_append_of_not_mem {c : Nat} {u : Bytes} (l : Bytes)
    (h : c ∉ u) : strchrPos c (u ++ l) = (strchrPos c l).map (· + u.length) := by
  induction u with
  | nil =>
    simp only [List.nil_append, List.length_nil]
    cases strchrPos c l <;> simp
  | cons b t ih =>
    have hb : ¬(b = c) := fun e => h (by simp [e])
    have ht : c ∉ t := fun hc => h (List.mem_cons_of_mem _ hc)
    show (if b = c then some 0 else (strchrPos c (t ++ l)).map (· + 1))
        = (strchrPos c l).map (· + (b :: t).length)
    rw [if_neg hb, ih ht]
    cases strchrPos c l <;> simp [Nat.add_assoc]

theorem strchrPos_self_head (c : Nat) (l : Bytes) :
    strchrPos c (c :: l) = some 0 := by simp [strchrPos]

theorem xorList_foldl (init : Nat) (l : Bytes) :
    l.foldl (fun a b => a ^^^ b) init = init ^^^ xorList l := by
  induction l generalizing init with
  | nil => simp [xorList]
  | cons c t ih =>
    simp only [xorList, List.foldl_cons] at *
    rw [ih (init ^^^ c), ih (0 ^^^ c), Nat.zero_xor, Nat.xor_assoc]

theorem xorList_cons (c : Nat) (l : Bytes) :
    xorList (c :: l) = c ^^^ xorList l := by
  simp only [xorList, List.foldl_cons]
  rw [xorList_foldl, Nat.zero_xor]
  rfl

theorem xorList_append (a b : Bytes) :
    xorList (a ++ b) = xorList a ^^^ xorList b := by
  simp only [xorList, List.foldl_append]
  rw [xorList_foldl (List.foldl (fun a b => a ^^^ b) 0 a) b]
  rfl

theorem xorList_lt_128 {l : Bytes} (h : ∀ b ∈ l, b < 128) :
    xorList l < 128 := by
  induction l with
  | nil => simp [xorList]
  | cons c t ih =>
    rw [xorList_cons]
    have hc : c < 2 ^ 7 := h c (List.mem_cons_self _ _)
    have ht : xorList t < 2 ^ 7 := ih fun b hb => h b (List.mem_cons_of_mem _ hb)
    exact Nat.xor_lt_two_pow hc ht

set_option maxRecDepth 4000 in
theorem hexRound : ∀ cs : Fin 256,
    hexVal (hexHi cs.val) = some (cs.val >>> 4) ∧
    hexVal (hexLo cs.val) = some (cs.val &&& 15) ∧
    ((cs.val >>> 4) <<< 4) ||| (cs.val &&& 15) = cs.val := by decide

theorem getD_append_idx (l r : Bytes) (i j d : Nat) (h : i = l.length + j) :
    (l ++ r).getD i d = r.getD j d := by
  subst h
  rw [List.getD_append_right _ _ _ _ (Nat.le_add_right _ _),
    Nat.add_sub_cancel_left]

theorem getD_of_length_le (l : Bytes) (i d : Nat) (h : l.length ≤ i) :
    l.getD i d = d := by
  simp [List.getD_eq_getElem?_getD, List.getElem?_eq_none h]

/-! ### Helper lemmas about the newline tokenizer -/

theorem splitNL_ne_nil (l : Bytes) : splitNL l ≠ [] := by
  cases l with
  | nil => simp [splitNL]
  | cons c rest =>
    simp only [splitNL]
    split
    · simp
    · cases splitNL rest <;> simp

theorem not_nl_of_mem_splitNL {t : Bytes} {l : Bytes} (h : t ∈ splitNL l) :
    10 ∉ t := by
  induction l generalizing t with
  | nil =>
    simp [splitNL] at h
    simp [h]
  | cons c rest ih =>
    by_cases hc : c = 10
    · simp only [splitNL, hc, if_pos rfl] at h
      rcases List.mem_cons.mp h with h1 | h2
      · simp [h1]
      · exact ih h2
    · simp only [splitNL, hc, if_false] at h
      rcases he : splitNL rest with _ | ⟨p, ps⟩
      · exact absurd he (splitNL_ne_nil rest)
      · rw [he] at h
        rcases List.mem_cons.mp h with h1 | h2
        · subst h1
          intro hm
          rcases List.mem_cons.mp hm with h3 | h4
          · exact hc h3.symm
          · exact (ih (he ▸ List.mem_cons_self p ps)) h4
        · exact ih (he ▸ List.mem_cons_of_mem p h2)

theorem splitNL_append {t : Bytes} (r : Bytes) (h : 10 ∉ t) :
    splitNL (t ++ 10 :: r) = t :: splitNL r := by
  induction t with
  | nil => simp [splitNL]
  | cons c u ih =>
    have hc : ¬(c = 10) := fun e => h (by simp [e])
    have hu : 10 ∉ u := fun hm => h (List.mem_cons_of_mem _ hm)
    simp only [List.cons_append, splitNL, hc, if_false]
    rw [List.append_eq, ih hu]

theorem strtokens_cons_token {t : Bytes} (r : Bytes) (h10 : 10 ∉ t)
    (hne : t ≠ []) : strtokens (t ++ 10 :: r) = t :: strtokens r := by
  simp only [strtokens, splitNL_append r h10, List.filter_cons]
  have : (!t.isEmpty) = true := by
    cases t
    · exact absurd rfl hne
    · rfl
  rw [if_pos this]

theorem strtokens_rebuild (ts : List Bytes)
    (h : ∀ t ∈ ts, 10 ∉ t ∧ t ≠ []) :
    strtokens (ts.foldr (fun e acc => e ++ 10 :: acc) []) = ts := by
  induction ts with
  | nil => simp [strtokens, splitNL]
  | cons t rest ih =>
    have ht := h t (List.mem_cons_self _ _)
    rw [List.foldr_cons,
      strtokens_cons_token _ ht.1 ht.2,
      ih fun x hx => h x (List.mem_cons_of_mem _ hx)]

theorem mem_strtokens {t b : Bytes} (h : t ∈ strtokens b) :
    10 ∉ t ∧ t ≠ [] := by
  have hm := List.mem_filter.mp h
  refine ⟨not_nl_of_mem_splitNL hm.1, ?_⟩
  intro he
  subst he
  simp at hm

/-- The backlog produced by pruning tokenizes back into exactly the kept
events. -/
theorem strtokens_pruneBacklog (b : Bytes) :
    strtokens (pruneBacklog b) = (strtokens b).filter keepEvent := by
  unfold pruneBacklog
  exact strtokens_rebuild _ fun t ht => mem_strtokens (List.mem_filter.mp ht).1

/-! ### Shape lemmas for frames -/

theorem strchrPos_frame {u : Bytes} (v w : Bytes) (hu : 36 ∉ u) :
    strchrPos 36 (u ++ (36 :: (v ++ (42 :: w)))) = some u.length := by
  rw [strchrPos_append_of_not_mem _ hu, strchrPos_self_head]
  simp

theorem strchrPos_star {v : Bytes} (w : Bytes) (hv : 42 ∉ v) :
    strchrPos 42 (36 :: (v ++ (42 :: w))) = some (v.length + 1) := by
  have h36 : ¬((36 : Nat) = 42) := by decide
  show (if (36 : Nat) = 42 then some 0
      else (strchrPos 42 (v ++ (42 :: w))).map (· + 1)) = some (v.length + 1)
  rw [if_neg h36, strchrPos_append_of_not_mem _ hv, strchrPos_self_head]
  simp

theorem checksumVerdict_success {cs c1 c2 : Nat}
    (h : checksumVerdict cs c1 c2 = .SUCCESS) :
    ∃ hi lo, hexVal c1 = some hi ∧ hexVal c2 = some lo ∧
      cs = (hi <<< 4) ||| lo := by
  unfold checksumVerdict at h
  split at h
  · exact absurd h (by decide)
  · rename_i hi h0
    split at h
    · exact absurd h (by decide)
    · rename_i lo h1
      split at h
      · rename_i hcs
        exact ⟨hi, lo, h0, h1, hcs⟩
      · exact absurd h (by decide)

theorem checksumVerdict_eq_success {cs c1 c2 hi lo : Nat}
    (h0 : hexVal c1 = some hi) (h1 : hexVal c2 = some lo)
    (hcs : cs = (hi <<< 4) ||| lo) : checksumVerdict cs c1 c2 = .SUCCESS := by
  unfold checksumVerdict
  rw [h0, h1]
  show (if cs = (hi <<< 4) ||| lo then Swarm_M138_Error_e.SUCCESS
    else Swarm_M138_Error_e.INVALID_CHECKSUM) = Swarm_M138_Error_e.SUCCESS
  rw [if_pos hcs]

theorem checksumVerdict_flip {cs cs2 c1 c2 : Nat}
    (h : checksumVerdict cs c1 c2 = .SUCCESS) (hne : cs2 ≠ cs) :
    checksumVerdict cs2 c1 c2 = .INVALID_CHECKSUM := by
  obtain ⟨hi, lo, h0, h1, hcs⟩ := checksumVerdict_success h
  unfold checksumVerdict
  rw [h0, h1]
  show (if cs2 = (hi <<< 4) ||| lo then Swarm_M138_Error_e.SUCCESS
    else Swarm_M138_Error_e.INVALID_CHECKSUM) = Swarm_M138_Error_e.INVALID_CHECKSUM
  rw [if_neg (hcs ▸ hne)]

/-- Symbolic evaluation of `checkChecksum` on a frame shape
`u $ v * w` where the displayed `$` and `*` are the ones the scans
find. -/
theorem checkChecksum_shape (u v w : Bytes) (hu : 36 ∉ u) (hv : 42 ∉ v) :
    checkChecksum (u ++ (36 :: (v ++ (42 :: w)))) =
      checksumVerdict (xorList v) (w.getD 0 0) (w.getD 1 0) := by
  have hdrop : (u ++ (36 :: (v ++ (42 :: w)))).drop u.length
      = 36 :: (v ++ (42 :: w)) := List.drop_left u _
  have hdrop1 : (u ++ (36 :: (v ++ (42 :: w)))).drop (u.length + 1)
      = v ++ (42 :: w) := by
    have he : u ++ (36 :: (v ++ (42 :: w))) = (u ++ [36]) ++ (v ++ (42 :: w)) := by
      simp
    have hl : (u ++ [36]).length = u.length + 1 := by simp
    rw [he, ← hl]
    exact List.drop_left _ _
  have harith : u.length + (v.length + 1) - (u.length + 1) = v.length := by omega
  have htake : (v ++ (42 :: w)).take v.length = v := List.take_left v _
  have hg1 : (u ++ (36 :: (v ++ (42 :: w)))).getD (u.length + (v.length + 1) + 1) 0
      = w.getD 0 0 := by
    have he : u ++ (36 :: (v ++ (42 :: w))) = (u ++ (36 :: (v ++ [42]))) ++ w := by
      simp
    rw [he]
    apply getD_append_idx
    simp
    omega
  have hg2 : (u ++ (36 :: (v ++ (42 :: w)))).getD (u.length + (v.length + 1) + 2) 0
      = w.getD 1 0 := by
    have he : u ++ (36 :: (v ++ (42 :: w))) = (u ++ (36 :: (v ++ [42]))) ++ w := by
      simp
    rw [he]
    apply getD_append_idx
    simp
    omega
  simp only [checkChecksum, strchrPos_frame v w hu, hdrop, strchrPos_star w hv,
    hdrop1, harith, htake, hg1, hg2]

/-- Symbolic evaluation of `addChecksumLF` on a `$ interior *` command:
the two hex digits of the interior's XOR and the line feed are
appended. -/
theorem addChecksumLF_frame (ι : Bytes) (hv : 42 ∉ ι) :
    addChecksumLF (36 :: (ι ++ [42])) =
      36 :: (ι ++ (42 :: [hexHi (xorList ι), hexLo (xorList ι), 10])) := by
  have hstar : strchrPos 42 (36 :: (ι ++ (42 :: []))) = some (ι.length + 1) :=
    strchrPos_star [] hv
  have hout : (36 :: (ι ++ [42])).getD (0 + (ι.length + 1) + 1) 0 = 0 := by
    apply getD_of_length_le
    simp
  have hdrop1 : (36 :: (ι ++ [42])).drop (0 + 1) = ι ++ [42] := rfl
  have htake : (ι ++ [42]).take ι.length = ι := List.take_left ι _
  have htakeall : (36 :: (ι ++ [42])).take (0 + (ι.length + 1) + 1)
      = 36 :: (ι ++ [42]) := by
    have hl : (36 :: (ι ++ [42])).length = 0 + (ι.length + 1) + 1 := by
      simp
    rw [← hl, List.take_length]
  have hne : ¬((36 :: (ι ++ [42])).getD (0 + (ι.length + 1) + 1) 0 = 42) := by
    rw [hout]
    decide
  simp only [addChecksumLF, strchrPos_self_head, List.drop_zero, hstar,
    if_neg hne, show 0 + (ι.length + 1) - (0 + 1) = ι.length by omega,
    hdrop1, htake, htakeall]
  simp

theorem checkChecksum_frame0 (v w : Bytes) (hv : 42 ∉ v) :
    checkChecksum (36 :: (v ++ (42 :: w))) =
      checksumVerdict (xorList v) (w.getD 0 0) (w.getD 1 0) := by
  have h := checkChecksum_shape [] v w (by simp) hv
  simpa using h

theorem frameInterior_frame0 (v w : Bytes) (hv : 42 ∉ v) :
    frameInterior (36 :: (v ++ (42 :: w))) = v := by
  simp only [frameInterior, strchrPos_self_head, List.drop_zero,
    strchrPos_star w hv, Nat.zero_add, Nat.add_sub_cancel,
    List.drop_succ_cons]
  exact List.take_left v _

/-- C3: framing any `$`-free, `*`-free printable tag and payload and then
validating recovers success and the original interior, from which the
tag and the payload are recovered unchanged. -/
theorem c3_frame_validate_roundtrip (tag payload : Bytes)
    (hstar : 42 ∉ tag ++ payload)
    (hdollar : 36 ∉ tag ++ payload)
    (hprint : ∀ b ∈ tag ++ payload, 0 < b ∧ b < 128) :
    checkChecksum (addChecksumLF (36 :: ((tag ++ payload) ++ [42]))) = .SUCCESS ∧
    frameInterior (addChecksumLF (36 :: ((tag ++ payload) ++ [42])))
      = tag ++ payload ∧
    (frameInterior (addChecksumLF (36 :: ((tag ++ payload) ++ [42])))).take
      tag.length = tag ∧
    (frameInterior (addChecksumLF (36 :: ((tag ++ payload) ++ [42])))).drop
      tag.length = payload := by
  have hcs : xorList (tag ++ payload) < 128 :=
    xorList_lt_128 fun b hb => (hprint b hb).2
  have h256 : xorList (tag ++ payload) < 256 := by omega
  have hr := hexRound ⟨xorList (tag ++ payload), h256⟩
  rw [addChecksumLF_frame _ hstar]
  have hint : frameInterior (36 :: ((tag ++ payload) ++
      (42 :: [hexHi (xorList (tag ++ payload)), hexLo (xorList (tag ++ payload)),
        10]))) = tag ++ payload := frameInterior_frame0 _ _ hstar
  refine ⟨?_, hint, ?_, ?_⟩
  · rw [checkChecksum_frame0 _ _ hstar]
    exact checksumVerdict_eq_success hr.1 hr.2.1 hr.2.2.symm
  · rw [hint]
    exact List.take_left tag payload
  · rw [hint]
    exact List.drop_left tag payload

/-- C5 counterexample: `"$AB*03\n"` is a valid frame; replacing the byte
at position 2 — strictly between the `$` at 0 and the first `*` at 3 —
with the different byte value `0x2A` (`*`) makes `checkChecksum` return
`INVALID_FORMAT`, not `INVALID_CHECKSUM`. -/
theorem c5_counterexample :
    checkChecksum (toB "$AB*03\n") = .SUCCESS ∧
    (toB "$AB*03\n").set 2 42 = toB "$A**03\n" ∧
    (toB "$AB*03\n").getD 2 0 ≠ 42 ∧
    checkChecksum (toB "$A**03\n") = .INVALID_FORMAT := by decide

/-- C5 amended: flipping one byte of the checksummed region of a valid
frame to a different value that is neither `*` (which moves the frame's
delimiter) nor NUL (which truncates the C string) makes `checkChecksum`
return `INVALID_CHECKSUM`.  The corrupted position is expressed by the
decomposition `interior = x ++ oldb :: y`. -/
theorem c5_flip_invalid_checksum (u x y w : Bytes) (oldb newb : Nat)
    (hu : 36 ∉ u) (hv : 42 ∉ x ++ (oldb :: y))
    (hne : newb ≠ oldb) (hstar : newb ≠ 42) (hnul : newb ≠ 0)
    (hvalid : checkChecksum (u ++ (36 :: ((x ++ (oldb :: y)) ++ (42 :: w))))
      = .SUCCESS) :
    checkChecksum (u ++ (36 :: ((x ++ (newb :: y)) ++ (42 :: w))))
      = .INVALID_CHECKSUM := by
  have hv2 : 42 ∉ x ++ (newb :: y) := by
    simp only [List.mem_append, List.mem_cons] at hv ⊢
    push_neg at hv ⊢
    exact ⟨hv.1, fun h => absurd h.symm hstar, hv.2.2⟩
  rw [checkChecksum_shape u _ w hu hv] at hvalid
  rw [checkChecksum_shape u _ w hu hv2]
  have hxor : xorList (x ++ (newb :: y)) ≠ xorList (x ++ (oldb :: y)) := by
    rw [xorList_append, xorList_append, xorList_cons, xorList_cons]
    intro hcontra
    exact hne (Nat.xor_left_inj.mp (Nat.xor_right_inj.mp hcontra))
  exact checksumVerdict_flip hvalid hxor

/-! ### Invariants of the response-matcher state machine -/

theorem scanChar_dest_backlog (rs : Bytes) (es : Option Bytes) (c i : Nat)
    (st : WFRState) :
    (scanChar rs es c i st).dest = st.dest ∧
    (scanChar rs es c i st).backlog = st.backlog := by
  unfold scanChar
  cases es <;> dsimp only <;> split_ifs <;> simp

theorem scanFrom_dest_backlog (rs : Bytes) (es : Option Bytes) :
    ∀ (chunk : Bytes) (i : Nat) (st : WFRState),
    (scanFrom rs es i chunk st).dest = st.dest ∧
    (scanFrom rs es i chunk st).backlog = st.backlog := by
  intro chunk
  induction chunk with
  | nil => intro i st; exact ⟨rfl, rfl⟩
  | cons c rest ih =>
    intro i st
    have h1 := scanChar_dest_backlog rs es c i st
    have h2 := ih (i + 1) (scanChar rs es c i st)
    exact ⟨h2.1.trans h1.1, h2.2.trans h1.2⟩

theorem scanChar_found_seen (rs : Bytes) (es : Option Bytes) (c i : Nat)
    (st : WFRState)
    (h : st.found = true → (st.responseStartSeen || st.errorStartSeen) = true) :
    (scanChar rs es c i st).found = true →
      ((scanChar rs es c i st).responseStartSeen ||
        (scanChar rs es c i st).errorStartSeen) = true := by
  unfold scanChar
  cases es <;> dsimp only <;> split_ifs <;> simp_all <;> tauto

theorem scanFrom_found_seen (rs : Bytes) (es : Option Bytes) :
    ∀ (chunk : Bytes) (i : Nat) (st : WFRState),
    (st.found = true → (st.responseStartSeen || st.errorStartSeen) = true) →
    (scanFrom rs es i chunk st).found = true →
      ((scanFrom rs es i chunk st).responseStartSeen ||
        (scanFrom rs es i chunk st).errorStartSeen) = true := by
  intro chunk
  induction chunk with
  | nil => intro i st h; exact h
  | cons c rest ih =>
    intro i st h
    exact ih (i + 1) (scanChar rs es c i st) (scanChar_found_seen rs es c i st h)

theorem processChunk_found_seen (rs : Bytes) (es : Option Bytes)
    (destSize : Nat) (st : WFRState) (chunk : Bytes)
    (h : st.found = true → (st.responseStartSeen || st.errorStartSeen) = true) :
    (processChunk rs es destSize st chunk).found = true →
      ((processChunk rs es destSize st chunk).responseStartSeen ||
        (processChunk rs es destSize st chunk).errorStartSeen) = true := by
  unfold processChunk
  split_ifs with h1 h2
  · exact scanFrom_found_seen rs es chunk st.dest.length st h
  · exact scanFrom_found_seen rs es chunk st.dest.length st h
  · exact h

theorem runChunks_found_seen (rs : Bytes) (es : Option Bytes) (destSize : Nat) :
    ∀ (chunks : List Bytes) (st : WFRState),
    (st.found = true → (st.responseStartSeen || st.errorStartSeen) = true) →
    (runChunks rs es destSize st chunks).found = true →
      ((runChunks rs es destSize st chunks).responseStartSeen ||
        (runChunks rs es destSize st chunks).errorStartSeen) = true := by
  intro chunks
  induction chunks with
  | nil => intro st h; exact h
  | cons ch rest ih =>
    intro st h
    unfold runChunks
    split_ifs with hf
    · exact h
    · exact ih _ (processChunk_found_seen rs es destSize st ch h)

/-- `checkChecksum` can only ever report success, a format failure or a
checksum failure. -/
theorem checksumVerdict_range (cs c1 c2 : Nat) :
    checksumVerdict cs c1 c2 = .SUCCESS ∨
      checksumVerdict cs c1 c2 = .INVALID_FORMAT ∨
      checksumVerdict cs c1 c2 = .INVALID_CHECKSUM := by
  unfold checksumVerdict
  rcases hexVal c1 with _ | hi
  · simp
  dsimp only
  rcases hexVal c2 with _ | lo
  · simp
  dsimp only
  split_ifs <;> simp

theorem checkChecksum_range (s : Bytes) :
    checkChecksum s = .SUCCESS ∨ checkChecksum s = .INVALID_FORMAT ∨
      checkChecksum s = .INVALID_CHECKSUM := by
  unfold checkChecksum
  rcases strchrPos 36 s with _ | d
  · simp
  dsimp only
  rcases strchrPos 42 (s.drop d) with _ | k
  · simp
  dsimp only
  exact checksumVerdict_range _ _ _

/-- C4: when the polling loop exits with a match and both the error
scanner and the success scanner have completed, the call resolves the
error match: it validates the checksum at the error match's recorded
offset and, when that checksum is valid, fills the command error slot
from the error frame and returns `ERR` — not the success result. -/
theorem c4_error_priority (rs : Bytes) (es : Option Bytes) (destSize : Nat)
    (backlog0 slot0 : Bytes) (chunks : List Bytes)
    (hF : (runChunks rs es destSize (initWFRState backlog0) chunks).found = true)
    (hE : (runChunks rs es destSize (initWFRState backlog0)
      chunks).errorStartSeen = true)
    (hR : (runChunks rs es destSize (initWFRState backlog0)
      chunks).responseStartSeen = true)
    (hC : checkChecksum
      ((runChunks rs es destSize (initWFRState backlog0) chunks).backlog.drop
        (runChunks rs es destSize (initWFRState backlog0)
          chunks).errorStartedAt) = .SUCCESS) :
    (waitForResponse rs es destSize backlog0 slot0 chunks).err = .ERR ∧
    (waitForResponse rs es destSize backlog0 slot0 chunks).slot =
      (extractCommandError
        ((runChunks rs es destSize (initWFRState backlog0) chunks).backlog.drop
          (runChunks rs es destSize (initWFRState backlog0)
            chunks).errorStartedAt)).1 := by
  unfold waitForResponse resolveWFR
  dsimp only
  rw [hF, hE, hC]
  simp

/-- C9: capacity overruns during a wait are non-fatal and lossy only.
First conjunct: a chunk that would overflow the response destination is
not consumed at all — the whole machine state is untouched and polling
merely continues.  Second conjunct: a chunk that fits the destination
but would overflow the backlog is still scanned and delivered to the
destination, only the backlog append is skipped.  Third conjunct: no
overflow introduces any new result kind — every call resolves to
`TIMEOUT`, `ERR`, `SUCCESS`, `INVALID_FORMAT` or `INVALID_CHECKSUM`. -/
theorem c9_overflow_nonfatal :
    (∀ (rs : Bytes) (es : Option Bytes) (destSize : Nat) (st : WFRState)
      (chunk : Bytes), destSize ≤ st.dest.length + chunk.length →
      processChunk rs es destSize st chunk = st) ∧
    (∀ (rs : Bytes) (es : Option Bytes) (destSize : Nat) (st : WFRState)
      (chunk : Bytes), st.dest.length + chunk.length < destSize →
      RxBuffSize ≤ st.backlog.length + chunk.length →
      processChunk rs es destSize st chunk =
        { scanFrom rs es st.dest.length chunk st with
          dest := st.dest ++ chunk } ∧
      (processChunk rs es destSize st chunk).backlog = st.backlog) ∧
    (∀ (rs : Bytes) (es : Option Bytes) (destSize : Nat)
      (backlog0 slot0 : Bytes) (chunks : List Bytes),
      (waitForResponse rs es destSize backlog0 slot0 chunks).err = .TIMEOUT ∨
      (waitForResponse rs es destSize backlog0 slot0 chunks).err = .ERR ∨
      (waitForResponse rs es destSize backlog0 slot0 chunks).err = .SUCCESS ∨
      (waitForResponse rs es destSize backlog0 slot0 chunks).err
        = .INVALID_FORMAT ∨
      (waitForResponse rs es destSize backlog0 slot0 chunks).err
        = .INVALID_CHECKSUM) := by
  refine ⟨?_, ?_, ?_⟩
  · intro rs es destSize st chunk hover
    unfold processChunk
    rw [if_neg (by omega)]
  · intro rs es destSize st chunk hfits hover
    have hmain : processChunk rs es destSize st chunk =
        { scanFrom rs es st.dest.length chunk st with
          dest := st.dest ++ chunk } := by
      unfold processChunk
      rw [if_pos hfits]
      dsimp only
      rw [if_neg (by omega)]
    refine ⟨hmain, ?_⟩
    rw [hmain]
    exact (scanFrom_dest_backlog rs es chunk st.dest.length st).2
  · intro rs es destSize backlog0 slot0 chunks
    unfold waitForResponse
    dsimp only
    have hInv := runChunks_found_seen rs es destSize chunks
      (initWFRState backlog0) (by intro h; simp [initWFRState] at h)
    unfold resolveWFR
    by_cases hf : (runChunks rs es destSize (initWFRState backlog0)
        chunks).found = true
    · rw [if_pos hf]
      by_cases he : (runChunks rs es destSize (initWFRState backlog0)
          chunks).errorStartSeen = true
      · rw [if_pos he]
        rcases checkChecksum_range
          ((runChunks rs es destSize (initWFRState backlog0) chunks).backlog.drop
            (runChunks rs es destSize (initWFRState backlog0)
              chunks).errorStartedAt) with h | h | h <;> simp [h]
      · rw [if_neg he]
        have hr : (runChunks rs es destSize (initWFRState backlog0)
            chunks).responseStartSeen = true := by
          have := hInv hf
          simp only [Bool.or_eq_true] at this
          rcases this with h1 | h1
          · exact h1
          · exact absurd h1 he
        rw [if_pos hr]
        rcases checkChecksum_range
          ((runChunks rs es destSize (initWFRState backlog0) chunks).backlog.drop
            (runChunks rs es destSize (initWFRState backlog0)
              chunks).responseStartedAt) with h | h | h <;> simp [h]
    · rw [if_neg hf]
      simp

/-- C7: `pruneBacklog` is idempotent: pruning a backlog that already
holds the result of pruning leaves it unchanged. -/
theorem c7_prune_idempotent (b : Bytes) :
    pruneBacklog (pruneBacklog b) = pruneBacklog b := by
  conv_lhs => rw [pruneBacklog, strtokens_pruneBacklog, List.filter_filter]
  rw [pruneBacklog]
  congr 1
  apply List.filter_congr
  intro x _
  rw [Bool.and_self]

/-- C6 counterexample: a `waitForResponse` call that resolves with a
successful match (result `SUCCESS`) and leaves the backlog non-empty:
the matched `$PW` response itself survives the final `pruneBacklog`
because its tag is one of the recognized unsolicited tags. -/
theorem c6_counterexample :
    (waitForResponse (toB "$PW ") (some (toB "$PW ERR")) 100
      [] [] [toB "$PW 1*16\n"]).err = .SUCCESS ∧
    (waitForResponse (toB "$PW ") (some (toB "$PW ERR")) 100
      [] [] [toB "$PW 1*16\n"]).backlog = toB "$PW 1*16\n" ∧
    (waitForResponse (toB "$PW ") (some (toB "$PW ERR")) 100
      [] [] [toB "$PW 1*16\n"]).backlog ≠ [] := by decide

/-- C6 amended: the backlog is not reset to empty after every match
attempt; it is pruned.  First conjunct: after any `waitForResponse`
call, every line left in the backlog contains a recognized unsolicited
tag (so the backlog is empty exactly when nothing actionable accrued,
but actionable frames — including a matched response whose tag is
itself a recognized one — survive).  Second conjunct: pruning yields the
empty backlog iff no token of the buffer is actionable.  Third
conjunct: a top-level `checkUnsolicitedMsg` dispatch pass (callbacks
not re-entering the engine) does leave the backlog empty. -/
theorem c6_amended :
    (∀ (rs : Bytes) (es : Option Bytes) (destSize : Nat)
      (backlog0 slot0 : Bytes) (chunks : List Bytes) (t : Bytes),
      t ∈ strtokens ((waitForResponse rs es destSize backlog0 slot0
        chunks).backlog) → keepEvent t = true) ∧
    (∀ b : Bytes, pruneBacklog b = [] ↔
      ∀ t ∈ strtokens b, keepEvent t = false) ∧
    (∀ (handler : Bytes → Bool) (backlog0 incoming : Bytes),
      (checkUnsolicitedMsg handler false true backlog0 incoming).backlog
        = []) := by
  refine ⟨?_, ?_, ?_⟩
  · intro rs es destSize backlog0 slot0 chunks t ht
    have hb : (waitForResponse rs es destSize backlog0 slot0 chunks).backlog
        = pruneBacklog (runChunks rs es destSize (initWFRState backlog0)
          chunks).backlog := rfl
    rw [hb, strtokens_pruneBacklog] at ht
    exact (List.mem_filter.mp ht).2
  · intro b
    unfold pruneBacklog
    constructor
    · intro h t ht
      rcases hk : (strtokens b).filter keepEvent with _ | ⟨e, rest⟩
      · by_contra hke
        have : t ∈ (strtokens b).filter keepEvent :=
          List.mem_filter.mpr ⟨ht, by simp at hke; simp [hke]⟩
        rw [hk] at this
        cases this
      · rw [hk] at h
        simp at h
    · intro h
      have : (strtokens b).filter keepEvent = [] :=
        List.filter_eq_nil_iff.mpr fun t ht => by simp [h t ht]
      rw [this]
      rfl
  · intro handler backlog0 incoming
    unfold checkUnsolicitedMsg
    simp

/-- C10: `extractCommandError` always leaves the command error slot
holding at most 31 bytes; when the input contains `ERR,` (first at
offset `u.length`) followed by error text `v` and then the `*`, the
slot is exactly `v` truncated to 31 bytes and the call succeeds; when
`ERR,` is absent, or no `*` follows it, the slot is left cleared. -/
theorem c10_extract_error :
    (∀ s : Bytes, (extractCommandError s).1.length ≤ 31) ∧
    (∀ u v w : Bytes,
      strstrPos (toB "ERR,") (u ++ (toB "ERR," ++ (v ++ (42 :: w))))
        = some u.length → 42 ∉ v →
      extractCommandError (u ++ (toB "ERR," ++ (v ++ (42 :: w))))
        = (v.take 31, .SUCCESS)) ∧
    (∀ s : Bytes, strstrPos (toB "ERR,") s = none →
      extractCommandError s = ([], .ERROR)) ∧
    (∀ (s : Bytes) (i : Nat), strstrPos (toB "ERR,") s = some i →
      strchrPos 42 (s.drop (i + 4)) = none →
      extractCommandError s = ([], .ERROR)) := by
  refine ⟨?_, ?_, ?_, ?_⟩
  · intro s
    unfold extractCommandError
    rcases strstrPos (toB "ERR,") s with _ | i
    · simp
    dsimp only
    rcases strchrPos 42 (s.drop (i + 4)) with _ | a
    · simp
    dsimp only
    simp only [List.length_take, SWARM_M138_MAX_CMD_ERROR_LEN]
    omega
  · intro u v w hfirst hv
    unfold extractCommandError
    rw [hfirst]
    dsimp only
    have hdrop : (u ++ (toB "ERR," ++ (v ++ (42 :: w)))).drop (u.length + 4)
        = v ++ (42 :: w) := by
      have he : u ++ (toB "ERR," ++ (v ++ (42 :: w)))
          = (u ++ toB "ERR,") ++ (v ++ (42 :: w)) := by simp
      have hl : (u ++ toB "ERR,").length = u.length + 4 := by
        simp [toB]
      rw [he, ← hl]
      exact List.drop_left _ _
    rw [hdrop, strchrPos_append_of_not_mem _ hv, strchrPos_self_head]
    simp only [Option.map_some']
    have hmin : min (0 + v.length) (SWARM_M138_MAX_CMD_ERROR_LEN - 1)
        = min v.length 31 := by
      simp [SWARM_M138_MAX_CMD_ERROR_LEN]
    rw [hmin]
    have htk : (v ++ (42 :: w)).take (min v.length 31) = v.take 31 := by
      rw [List.take_append_of_le_length (by omega)]
      rcases Nat.le_total v.length 31 with h | h
      · rw [Nat.min_eq_left h, List.take_length,
          List.take_of_length_le h]
      · rw [Nat.min_eq_right h]
    rw [htk]
  · intro s hnone
    unfold extractCommandError
    rw [hnone]
  · intro s i hsome hstar
    unfold extractCommandError
    rw [hsome]
    dsimp only
    rw [hstar]


/-! ### Code-level divergences -/

/-- C1: the prefix scanners of `waitForResponse` record the match start
as `chrPtr` — an offset into the response destination buffer — yet the
exit path validates `checkChecksum(&_swarmBacklog[offset])`.  When the
backlog already holds bytes as the call begins (here the stale frame
`$GS B*00\n`, 9 bytes, as deposited by `sendCommand`'s pre-drain), the
matched `$PW` response sits at backlog offset 9 while the recorded
offset is 0, so the engine validates the stale frame instead and
returns `INVALID_CHECKSUM` even though the matched frame's checksum is
valid. -/
theorem c1_offset_bug :
    (waitForResponse (toB "$PW ") (some (toB "$PW ERR")) 100
      (toB "$GS B*00\n") [] [toB "$PW 1*16\n"]).err = .INVALID_CHECKSUM ∧
    (runChunks (toB "$PW ") (some (toB "$PW ERR")) 100
      (initWFRState (toB "$GS B*00\n"))
      [toB "$PW 1*16\n"]).responseStartedAt = 0 ∧
    (runChunks (toB "$PW ") (some (toB "$PW ERR")) 100
      (initWFRState (toB "$GS B*00\n"))
      [toB "$PW 1*16\n"]).backlog = toB "$GS B*00\n$PW 1*16\n" ∧
    checkChecksum ((toB "$GS B*00\n$PW 1*16\n").drop 9) = .SUCCESS := by
  decide

/-- C2: for the well-formed timestamp `20230115123456` (month digits
`01` at positions 5-6, day digits `15` at positions 7-8) the shared
`$DT` decode used by `processUnsolicitedEvent` and `getDateTime`
returns `MM = 15` and `DD = 1`: the month lands in the field the header
documents as Day and the day in the field documented as Month `01..12`
(15 even violates that documented range). -/
theorem c2_datetime_swap :
    parseDT (toB "$DT 20230115123456,V*4b")
      = some ⟨2023, 15, 1, 12, 34, 56, true⟩ := by decide

/-- C8: when the receive-buffer allocation fails in a top-level
`checkUnsolicitedMsg` call, the function returns `false` without
clearing the reentrancy guard it has just set, so every subsequent call
— made when no dispatch is in progress — is rejected by the guard. -/
theorem c8_guard_leak :
    (checkUnsolicitedMsg (fun _ => false) false false
      (toB "$DT 1*2e\n") []).handled = false ∧
    (checkUnsolicitedMsg (fun _ => false) false false
      (toB "$DT 1*2e\n") []).reentrantFlag = true ∧
    (checkUnsolicitedMsg (fun _ => false) true true
      (toB "$DT 1*2e\n") (toB "$DT 1*2e\n")).handled = false := by decide

/-! ### Concrete instantiations of the quantified results -/

theorem c3_witness :
    checkChecksum (addChecksumLF (36 :: ((toB "DT" ++ toB " @") ++ [42])))
      = .SUCCESS :=
  (c3_frame_validate_roundtrip (toB "DT") (toB " @") (by decide) (by decide)
    (by decide)).1

theorem c4_witness :
    (waitForResponse (toB "$TD OK") (some (toB "$TD ERR")) 100 [] []
      [toB "$TD ERR,BAD $TD OK,X*5a\n"]).err = .ERR ∧
    (waitForResponse (toB "$TD OK") (some (toB "$TD ERR")) 100 [] []
      [toB "$TD ERR,BAD $TD OK,X*5a\n"]).slot = toB "BAD $TD OK,X" := by
  have h := c4_error_priority (toB "$TD OK") (some (toB "$TD ERR")) 100 [] []
    [toB "$TD ERR,BAD $TD OK,X*5a\n"] (by decide) (by decide) (by decide)
    (by decide)
  exact ⟨h.1, h.2.trans (by decide)⟩

theorem c5_witness :
    checkChecksum ([] ++ (36 :: ((toB "A" ++ (67 :: ([] : Bytes)))
      ++ (42 :: toB "03\n")))) = .INVALID_CHECKSUM :=
  c5_flip_invalid_checksum [] (toB "A") [] (toB "03\n") 66 67
    (by decide) (by decide) (by decide) (by decide) (by decide) (by decide)

theorem c6_witness :
    keepEvent (toB "$PW 1*16") = true ∧
    pruneBacklog (toB "JUNK\n") = [] ∧
    (checkUnsolicitedMsg (fun _ => false) false true (toB "$DT 1*2e\n")
      (toB "$PW 1*16\n")).backlog = [] :=
  ⟨c6_amended.1 (toB "$PW ") (some (toB "$PW ERR")) 100 [] []
      [toB "$PW 1*16\n"] (toB "$PW 1*16") (by decide),
   (c6_amended.2.1 (toB "JUNK\n")).mpr (by decide),
   c6_amended.2.2 (fun _ => false) (toB "$DT 1*2e\n") (toB "$PW 1*16\n")⟩

theorem c9_witness :
    processChunk (toB "$PW ") none 3
      ⟨toB "AB", [], 0, 0, false, false, 0, 0, false⟩ (toB "CD")
      = ⟨toB "AB", [], 0, 0, false, false, 0, 0, false⟩ ∧
    (processChunk (toB "$PW ") none 100
      ⟨[], List.replicate 508 65, 0, 0, false, false, 0, 0, false⟩
      (toB "$PW 1*16\n")).backlog = List.replicate 508 65 ∧
    ((waitForResponse (toB "$PW ") none 100 [] [] []).err = .TIMEOUT ∨
      (waitForResponse (toB "$PW ") none 100 [] [] []).err = .ERR ∨
      (waitForResponse (toB "$PW ") none 100 [] [] []).err = .SUCCESS ∨
      (waitForResponse (toB "$PW ") none 100 [] [] []).err
        = .INVALID_FORMAT ∨
      (waitForResponse (toB "$PW ") none 100 [] [] []).err
        = .INVALID_CHECKSUM) :=
  ⟨c9_overflow_nonfatal.1 (toB "$PW ") none 3
      ⟨toB "AB", [], 0, 0, false, false, 0, 0, false⟩ (toB "CD") (by decide),
   (c9_overflow_nonfatal.2.1 (toB "$PW ") none 100
      ⟨[], List.replicate 508 65, 0, 0, false, false, 0, 0, false⟩
      (toB "$PW 1*16\n") (by decide) (by decide)).2,
   c9_overflow_nonfatal.2.2 (toB "$PW ") none 100 [] [] []⟩

theorem c10_witness :
    (extractCommandError (toB "$TD ERR,BADDATA*0e\n")).1.length ≤ 31 ∧
    extractCommandError (toB "$TD " ++ (toB "ERR," ++ (toB "BADDATA"
      ++ (42 :: toB "0e\n")))) = ((toB "BADDATA").take 31, .SUCCESS) ∧
    extractCommandError (toB "hello") = ([], .ERROR) ∧
    extractCommandError (toB "xERR,zzz") = ([], .ERROR) :=
  ⟨c10_extract_error.1 (toB "$TD ERR,BADDATA*0e\n"),
   c10_extract_error.2.1 (toB "$TD ") (toB "BADDATA") (toB "0e\n")
     (by decide) (by decide),
   c10_extract_error.2.2.1 (toB "hello") (by decide),
   c10_extract_error.2.2.2 (toB "xERR,zzz") 1 (by decide) (by decide)⟩
